import Mathlib

/-!
Verification of the gemini-frontend stream/transport core against its spec.

The definitions below are shallow embeddings of the TypeScript source:
* the line-buffered SSE reader of `ApiClient.agentStream` (src/unnamed/part_001),
* the Code Doctor stream reducer `handleStreamEvent` and the surrounding
  `handleSubmit` read loop (src/unnamed/part_001, Svelte component),
* `ApiClient.pollJobUntilComplete` (src/unnamed/part_001),
* the `ApiClient` credential state machine (`setApiKey` / `clearApiKey` /
  `setStorageType` / `getApiKey` / `hasApiKey` / `getHeaders`, src/unnamed/part_001),
* the chat store `updateLastMessage` (src/src/lib/stores/chat.ts).

JavaScript strings are modelled as `List Char` where splitting matters and as
`String` elsewhere; JSON payload parsing (`JSON.parse`) is an external browser
primitive and is therefore a parameter `parse : List Char → Option E` (`none`
models a parse exception, which the source catches and ignores).  Wall-clock
time (timers, `Date`) is outside the model; event-log entries carry no
timestamps.  All definitions come first, all theorems follow.
-/

namespace GeminiFrontend

/-! ### SSE line-buffered reader (`ApiClient.agentStream`)

Source (src/unnamed/part_001, lines 394-421):

  buffer += decoder.decode(value, \x7b stream: true \x7d);
  const lines = buffer.split('\n');
  buffer = lines.pop() || '';
  for (const line of lines)
    if (line.startsWith('data: '))
      try \x7b onEvent(JSON.parse(line.slice(6))) \x7d catch \x7b /* ignore */ \x7d
-/

/-- Embedding of the JavaScript `buffer.split('\n')`: splits a character list
at every newline, keeping empty segments, so the result is always nonempty
(splitting the empty string yields `[""]`, exactly as in JavaScript). -/
def jsSplitNl : List Char → List (List Char)
  | [] => [[]]
  | c :: cs =>
    if c = '\n' then [] :: jsSplitNl cs
    else
      match jsSplitNl cs with
      | [] => [[c]]
      | l :: ls => (c :: l) :: ls

/-- Embedding of the per-line body of the read loop: a line is delivered to
`onEvent` iff it starts with `"data: "` and its payload after `slice(6)`
parses; a parse failure (`none`) is silently dropped, mirroring the
`catch \x7b /* Ignore parse errors */ \x7d` in the source. -/
def processSseLine {E : Type} (parse : List Char → Option E) (line : List Char) : Option E :=
  if ("data: ".toList).isPrefixOf line then parse (line.drop 6) else none

/-- State of the read loop: the carried-over incomplete line (`buffer`) and
the events delivered to `onEvent` so far, in delivery order. -/
structure StreamReadState (E : Type) where
  buffer : List Char
  emitted : List E
deriving DecidableEq, Repr

/-- The loop state before the first chunk arrives (`let buffer = ''`). -/
def initReadState (E : Type) : StreamReadState E := ⟨[], []⟩

/-- Embedding of one iteration of the `while (true)` read loop of
`agentStream`: append the decoded chunk to the buffer, split on newlines,
keep the final (possibly incomplete) segment as the new buffer
(`lines.pop() || ''`), and deliver every complete line through
`processSseLine` in order. -/
def feedChunk {E : Type} (parse : List Char → Option E) (st : StreamReadState E)
    (chunk : List Char) : StreamReadState E :=
  let lines := jsSplitNl (st.buffer ++ chunk)
  { buffer := lines.getLastD [],
    emitted := st.emitted ++ lines.dropLast.filterMap (processSseLine parse) }

/-- Proof device (not part of the source): the same reader consuming one
character at a time.  `feedChunk` is proved equal to folding `feedChar`,
which makes chunk-boundary invariance a consequence of `List.foldl_append`. -/
def feedChar {E : Type} (parse : List Char → Option E) (st : StreamReadState E)
    (c : Char) : StreamReadState E :=
  if c = '\n' then
    { buffer := [], emitted := st.emitted ++ (processSseLine parse st.buffer).toList }
  else
    { buffer := st.buffer ++ [c], emitted := st.emitted }

/-! ### Code Doctor stream reducer (`handleStreamEvent` / `handleSubmit`)

Source: the Code Doctor Svelte component in src/unnamed/part_001
(`handleStreamEvent`, lines 871-916, and the SSE read loop inside
`handleSubmit`, lines 814-868) driving the `/v5/analyze/full/stream`
endpoint. -/

/-- Security finding payload (opaque to the reducer except for its title). -/
structure Finding where
  title : String
deriving DecidableEq, Repr

/-- Code issue payload. -/
structure Issue where
  title : String
deriving DecidableEq, Repr

/-- Evolution recommendation payload. -/
structure Recommendation where
  title : String
deriving DecidableEq, Repr

/-- A parsed SSE frame of the v5 analysis stream.  The JSON object is
dynamic; fields that a given frame does not carry are `none`
(JavaScript `undefined`). -/
structure StreamEvent where
  type : String
  phase : Option String := none
  message : Option String := none
  name : Option String := none
  finding : Option Finding := none
  issue : Option Issue := none
  recommendation : Option Recommendation := none
  security_findings : Option (List Finding) := none
  code_issues : Option (List Issue) := none
  evolution_recommendations : Option (List Recommendation) := none
  overall_health_score : Option Nat := none
  error : Option String := none
deriving DecidableEq, Repr

/-- One entry of the component's diagnostic event log (`ProgressEvent` in the
source, minus the wall-clock timestamp and the opaque `data` payload, both of
which the reducer only stores and never reads). -/
structure ProgressEntry where
  type : String
  message : String
  phase : Option String := none
deriving DecidableEq, Repr

/-- The component state touched by the stream reducer: progress display,
the three accumulators, the event log, and the error/result/busy fields. -/
structure DoctorState where
  currentPhase : String
  currentStep : String
  securityFindings : List Finding
  codeIssues : List Issue
  evolutionRecs : List Recommendation
  events : List ProgressEntry
  error : Option String
  result : Option StreamEvent
  isAnalyzing : Bool
deriving DecidableEq, Repr

/-- JavaScript `x || d` for an optional string: an absent (`undefined`) or
empty (falsy) string falls back to the default. -/
def jsOr (o : Option String) (d : String) : String :=
  match o with
  | some s => if s = "" then d else s
  | none => d

/-- JavaScript string coercion of a possibly-undefined value, as it appears
inside template literals in the source. -/
def jsStr (o : Option String) : String :=
  match o with
  | some s => s
  | none => "undefined"

/-- Embedding of the component's `addEvent(type, message, phase?)`: appends a
log entry and, when a (truthy) phase is supplied, advances `currentPhase`. -/
def addEvent (st : DoctorState) (t m : String) (phase : Option String) : DoctorState :=
  { st with
    events := st.events ++ [{ type := t, message := m, phase := phase }],
    currentPhase := jsOr phase st.currentPhase }

/-- Embedding of `handleStreamEvent` (src/unnamed/part_001, lines 871-916).
Note the `tool_result` branch: the source tests `event.type ===
'security_finding'` (and `'issue'`, `'recommendation_found'`) inside `case
'tool_result':`, where `event.type` is already known to be
`'tool_result'` — the three guards are kept verbatim here, unsatisfiable as
in the source. -/
def handleStreamEvent (st : DoctorState) (e : StreamEvent) : DoctorState :=
  if e.type = "thinking" then
    let st := { st with
      currentPhase := jsOr e.phase st.currentPhase,
      currentStep := jsOr e.message ("Phase: " ++ jsStr e.phase) }
    addEvent st "thinking" (jsOr e.message (jsStr e.phase)) e.phase
  else if e.type = "tool_start" then
    let st := { st with
      currentStep := "Running: " ++ jsOr e.phase (jsOr e.name "processing") }
    if e.phase = some "clone" then
      addEvent { st with currentPhase := "clone" } "tool" "Cloning repository..." (some "clone")
    else if e.phase = some "security" then
      addEvent { st with currentPhase := "security" } "tool" "Scanning for secrets..." (some "security")
    else if e.phase = some "analysis" then
      addEvent { st with currentPhase := "analysis" } "tool" "Analyzing code..." (some "analysis")
    else if e.phase = some "evolution" then
      addEvent { st with currentPhase := "evolution" } "tool" "Generating recommendations..." (some "evolution")
    else st
  else if e.type = "tool_result" then
    if h : e.type = "security_finding" ∧ e.finding.isSome then
      addEvent { st with securityFindings := st.securityFindings ++ [e.finding.get h.2] }
        "security" (e.finding.get h.2).title (some "security")
    else if h : e.type = "issue" ∧ e.issue.isSome then
      addEvent { st with codeIssues := st.codeIssues ++ [e.issue.get h.2] }
        "issue" (e.issue.get h.2).title (some "analysis")
    else if h : e.type = "recommendation_found" ∧ e.recommendation.isSome then
      addEvent { st with evolutionRecs := st.evolutionRecs ++ [e.recommendation.get h.2] }
        "evolution" (e.recommendation.get h.2).title (some "evolution")
    else st
  else if e.type = "token" then
    { st with currentStep := "Generating analysis..." }
  else
    st

/-- Embedding of the per-frame loop body of `handleSubmit` (lines 826-859)
folded over a list of already-parsed frames, with transport end-of-stream
(`done` from `reader.read()`) modelled by list exhaustion.

* a `done` frame finalizes: `currentPhase = 'done'`, `result = event`, the
  three accumulators are overwritten from the frame's arrays
  (`event.security_findings || []` etc.), a log entry is added,
  `isAnalyzing = false`, and the function returns (frames after `done` are
  never read);
* an `error` frame executes `throw new Error(event.error || ...)`, but that
  throw happens inside the per-frame `try ... catch (parseError)` whose
  handler only calls `console.warn` — so, as in the source, the loop simply
  continues with the next frame;
* when the list is exhausted without a terminal frame, control falls out of
  the `while` loop and only the `finally \x7b isAnalyzing = false \x7d`
  block runs. -/
def processEvents (st : DoctorState) : List StreamEvent → DoctorState
  | [] => { st with isAnalyzing := false }
  | e :: rest =>
    let st1 := handleStreamEvent st e
    if e.type = "done" then
      let st2 := { st1 with
        currentPhase := "done",
        result := some e,
        securityFindings := e.security_findings.getD [],
        codeIssues := e.code_issues.getD [],
        evolutionRecs := e.evolution_recommendations.getD [] }
      let st3 := addEvent st2 "done"
        ("Analysis complete! Health score: " ++ toString (e.overall_health_score.getD 0))
        (some "done")
      { st3 with isAnalyzing := false }
    else
      processEvents st1 rest

/-- The component state right after the `handleSubmit` preamble
(`resetState()`, `addEvent('start', ..., 'init')`,
`currentStep = 'Connecting to server...'`). -/
def initialDoctorState (repoUrl : String) : DoctorState :=
  { currentPhase := "init",
    currentStep := "Connecting to server...",
    securityFindings := [], codeIssues := [], evolutionRecs := [],
    events := [{ type := "start",
                 message := "Starting Code Doctor analysis of " ++ repoUrl,
                 phase := some "init" }],
    error := none, result := none, isAnalyzing := true }

/-- A `tool_result` frame carrying a security finding, as described by the
spec's folding rules for typed `tool_result` payloads. -/
def secFindingFrame (t : String) : StreamEvent :=
  { type := "tool_result", finding := some { title := t } }

/-- The same payload delivered with the subtype as the frame's own `type`
tag (the encoding the dead guards seem to expect). -/
def secFindingFrameAlt (t : String) : StreamEvent :=
  { type := "security_finding", finding := some { title := t } }

/-- A terminal `done` frame whose aggregate arrays are empty. -/
def doneFrameEmpty : StreamEvent :=
  { type := "done", overall_health_score := some 73,
    security_findings := some [], code_issues := some [],
    evolution_recommendations := some [] }

/-! ### Async job polling (`ApiClient.pollJobUntilComplete`)

Source (src/unnamed/part_001, lines 529-544):

  while (true) \x7b
    const status = await this.getJobStatus(jobId);
    onProgress(status);
    if (status.status === 'completed' || status.status === 'failed') return status;
    await new Promise(resolve => setTimeout(resolve, intervalMs));
  \x7d

The successive `getJobStatus` responses are modelled as a list; exhausting
the list models a job that is still in progress at that point (the loop
would keep going).  `jobId` and `intervalMs` do not influence the folded
result and wall-clock sleeping is outside the model. -/

/-- The `status` field of an `AsyncJobStatus` response. -/
inductive JobState where
  | pending
  | queued
  | running
  | completed
  | failed
deriving DecidableEq, Repr

/-- Async job status record (v4 `GET /v4/jobs/\x7bjob_id\x7d` response, reduced to
the fields the poll loop reads). -/
structure AsyncJobStatus where
  job_id : String
  status : JobState
  error : Option String := none
deriving DecidableEq, Repr

/-- The loop's stop condition:
`status.status === 'completed' || status.status === 'failed'`. -/
def isTerminalJob (s : AsyncJobStatus) : Bool :=
  s.status == JobState.completed || s.status == JobState.failed

/-- Embedding of `pollJobUntilComplete` over the list of successive status
fetches.  The first component collects the arguments of the `onProgress`
invocations in order (one per fetch); the second is `some s` when the loop
returned `s`, and `none` when the provided fetch trace ran out with the loop
still going. -/
def pollJobUntilComplete :
    List AsyncJobStatus → List AsyncJobStatus × Option AsyncJobStatus
  | [] => ([], none)
  | s :: rest =>
    if isTerminalJob s then ([s], some s)
    else
      let r := pollJobUntilComplete rest
      (s :: r.1, r.2)

/-! ### ApiClient credential storage

Source (src/unnamed/part_001, lines 258-347): `setApiKey` first removes the
key from both `localStorage` and `sessionStorage`, then writes it to the
location selected by `storageType`; `clearApiKey` removes it from both;
`setStorageType` records the new policy and, when a (truthy) key is held,
re-runs `setApiKey` to migrate it.  Browser storage is modelled by two
`Option String` cells; the state starts from a clean browser profile (the
client is the only writer of these keys). -/

/-- Storage policy for the API key. -/
inductive StorageType where
  | session
  | local
  | memory
deriving DecidableEq, Repr

/-- In-memory client field plus the two browser storage cells for
`gemini_api_key`, and the persisted policy cell
`gemini_api_key_storage_type`. -/
structure ApiClientState where
  apiKey : Option String
  storageType : StorageType
  localStore : Option String
  sessionStore : Option String
  storedTypePref : Option StorageType
deriving DecidableEq, Repr

/-- Constructor state on a clean browser profile: no stored policy (defaults
to `'session'`), no stored key. -/
def initialClient : ApiClientState :=
  { apiKey := none, storageType := StorageType.session,
    localStore := none, sessionStore := none, storedTypePref := none }

/-- Embedding of `setApiKey(key)`: set the field, clear both storages, then
write to the location selected by the current policy (`'memory'` writes
nowhere). -/
def setApiKey (st : ApiClientState) (key : String) : ApiClientState :=
  let st := { st with apiKey := some key, localStore := none, sessionStore := none }
  match st.storageType with
  | StorageType.local => { st with localStore := some key }
  | StorageType.session => { st with sessionStore := some key }
  | StorageType.memory => st

/-- Embedding of `clearApiKey()`. -/
def clearApiKey (st : ApiClientState) : ApiClientState :=
  { st with apiKey := none, localStore := none, sessionStore := none }

/-- Embedding of `setStorageType(type)`: record the policy (also persisting
it), then `if (this.apiKey) this.setApiKey(this.apiKey)` — note the
JavaScript truthiness test, under which an empty-string key is not
migrated. -/
def setStorageType (st : ApiClientState) (t : StorageType) : ApiClientState :=
  let st := { st with storageType := t, storedTypePref := some t }
  match st.apiKey with
  | some k => if k = "" then st else setApiKey st k
  | none => st

/-- Embedding of `getApiKey()`. -/
def getApiKey (st : ApiClientState) : Option String :=
  st.apiKey

/-- Embedding of `hasApiKey()`, i.e. `!!this.apiKey` (empty string is
falsy). -/
def hasApiKey (st : ApiClientState) : Bool :=
  match st.apiKey with
  | some k => k != ""
  | none => false

/-- Embedding of `getHeaders()`: always `Content-Type`, plus `X-API-Key`
exactly when the held key is truthy. -/
def getHeaders (st : ApiClientState) : List (String × String) :=
  let headers := [("Content-Type", "application/json")]
  match st.apiKey with
  | some k => if k = "" then headers else headers ++ [("X-API-Key", k)]
  | none => headers

/-- One public credential operation of the client. -/
inductive ClientOp where
  | setKey (k : String)
  | clearKey
  | setType (t : StorageType)
deriving DecidableEq, Repr

/-- Interpretation of a credential operation. -/
def applyOp (st : ApiClientState) : ClientOp → ApiClientState
  | ClientOp.setKey k => setApiKey st k
  | ClientOp.clearKey => clearApiKey st
  | ClientOp.setType t => setStorageType st t

/-- Run a sequence of credential operations from a given state. -/
def applyOps (st : ApiClientState) (ops : List ClientOp) : ApiClientState :=
  ops.foldl applyOp st

/-- The key is held by at most one persistent storage location. -/
def exclusiveStorage (st : ApiClientState) : Prop :=
  st.localStore = none ∨ st.sessionStore = none

/-! ### Chat store (`updateLastMessage`)

Source (src/src/lib/stores/chat.ts, lines 35-45):

  updateLastMessage: (updates: Partial<Message>) =>
    update((messages) => \x7b
      if (messages.length === 0) return messages;
      const updated = [...messages];
      updated[updated.length - 1] = \x7b ...updated[updated.length - 1], ...updates \x7d;
      return updated;
    \x7d)

`Partial<Message>` is modelled as one `Option` per field: `some v` is a
property present in `updates` (overriding via object spread), `none` an
absent property.  `Date` timestamps are epoch numbers. -/

/-- Message author role. -/
inductive Role where
  | user
  | assistant
deriving DecidableEq, Repr

/-- Tool call attached to a message. -/
structure MsgToolCall where
  name : String
deriving DecidableEq, Repr

/-- The chat store `Message` record. -/
structure Message where
  id : String
  role : Role
  content : String
  timestamp : Nat
  toolCalls : Option (List MsgToolCall) := none
  iterations : Option Nat := none
  sessionId : Option String := none
  completed : Option Bool := none
  thinkingLevel : Option String := none
deriving DecidableEq, Repr

/-- A `Partial<Message>`: each field is present (`some`) or absent
(`none`). -/
structure MessageUpdate where
  id : Option String := none
  role : Option Role := none
  content : Option String := none
  timestamp : Option Nat := none
  toolCalls : Option (Option (List MsgToolCall)) := none
  iterations : Option (Option Nat) := none
  sessionId : Option (Option String) := none
  completed : Option (Option Bool) := none
  thinkingLevel : Option (Option String) := none
deriving DecidableEq, Repr

/-- Object spread `\x7b ...m, ...u \x7d`: every property present in `u`
overrides the one in `m`. -/
def applyUpdates (m : Message) (u : MessageUpdate) : Message :=
  { id := u.id.getD m.id,
    role := u.role.getD m.role,
    content := u.content.getD m.content,
    timestamp := u.timestamp.getD m.timestamp,
    toolCalls := u.toolCalls.getD m.toolCalls,
    iterations := u.iterations.getD m.iterations,
    sessionId := u.sessionId.getD m.sessionId,
    completed := u.completed.getD m.completed,
    thinkingLevel := u.thinkingLevel.getD m.thinkingLevel }

/-- Embedding of `updateLastMessage`: the empty list is returned unchanged
(`messages.length === 0` guard); otherwise the entry at index
`length - 1` is replaced by the spread-merge of itself with `updates`. -/
def updateLastMessage (msgs : List Message) (u : MessageUpdate) : List Message :=
  match msgs.getLast? with
  | none => msgs
  | some last => msgs.set (msgs.length - 1) (applyUpdates last u)

/-! ### Theorems: the SSE reader (claims C4 and C8) -/

theorem jsSplitNl_ne_nil (s : List Char) : jsSplitNl s ≠ [] := by
  match s with
  | [] => simp [jsSplitNl]
  | c :: cs =>
    simp only [jsSplitNl]
    split
    · simp
    · split <;> simp

theorem jsSplitNl_no_newline {s : List Char} (h : '\n' ∉ s) : jsSplitNl s = [s] := by
  induction s with
  | nil => rfl
  | cons c cs ih =>
    have hc : c ≠ '\n' := fun e => h (e ▸ List.mem_cons_self c cs)
    have hcs : '\n' ∉ cs := fun m => h (List.mem_cons_of_mem c m)
    simp only [jsSplitNl, if_neg hc, ih hcs]

theorem jsSplitNl_append_newline {s : List Char} (t : List Char) (h : '\n' ∉ s) :
    jsSplitNl (s ++ '\n' :: t) = s :: jsSplitNl t := by
  induction s with
  | nil => simp [jsSplitNl]
  | cons c cs ih =>
    have hc : c ≠ '\n' := fun e => h (e ▸ List.mem_cons_self c cs)
    have hcs : '\n' ∉ cs := fun m => h (List.mem_cons_of_mem c m)
    simp only [List.cons_append, jsSplitNl, if_neg hc, List.append_eq, ih hcs]

theorem feedChunk_eq_foldl {E : Type} (parse : List Char → Option E)
    (chunk : List Char) (st : StreamReadState E) (h : '\n' ∉ st.buffer) :
    feedChunk parse st chunk = chunk.foldl (feedChar parse) st := by
  induction chunk generalizing st with
  | nil =>
    simp only [feedChunk, List.append_nil, List.foldl_nil, jsSplitNl_no_newline h]
    simp [List.getLastD]
  | cons c cc ih =>
    rw [List.foldl_cons]
    by_cases hc : c = '\n'
    · subst hc
      have hst : '\n' ∉ (feedChar parse st '\n').buffer := by simp [feedChar]
      rw [← ih _ hst]
      obtain ⟨t0, ts, ht⟩ : ∃ t0 ts, jsSplitNl cc = t0 :: ts := by
        cases hcc : jsSplitNl cc with
        | nil => exact absurd hcc (jsSplitNl_ne_nil cc)
        | cons a b => exact ⟨a, b, rfl⟩
      simp only [feedChunk, feedChar, if_pos rfl, List.nil_append,
        jsSplitNl_append_newline cc h, ht]
      cases hp : processSseLine parse st.buffer <;>
        simp [List.filterMap_cons, hp, List.getLastD_cons, List.dropLast_cons₂] <;>
        simp [ht]
    · have hb : '\n' ∉ (feedChar parse st c).buffer := by
        simp only [feedChar, if_neg hc, List.mem_append, List.mem_singleton]
        rintro (hm | hm)
        · exact h hm
        · exact hc hm.symm
      rw [← ih _ hb]
      simp only [feedChunk, feedChar, if_neg hc]
      rw [List.append_cons]

theorem no_newline_foldl_feedChar {E : Type} (parse : List Char → Option E)
    (chunk : List Char) (st : StreamReadState E) (h : '\n' ∉ st.buffer) :
    '\n' ∉ (chunk.foldl (feedChar parse) st).buffer := by
  induction chunk generalizing st with
  | nil => exact h
  | cons c cc ih =>
    rw [List.foldl_cons]
    apply ih
    by_cases hc : c = '\n'
    · simp [feedChar, hc]
    · simp only [feedChar, if_neg hc, List.mem_append, List.mem_singleton]
      rintro (hm | hm)
      · exact h hm
      · exact hc hm.symm

theorem foldl_feedChunk_eq {E : Type} (parse : List Char → Option E)
    (chunks : List (List Char)) (st : StreamReadState E) (h : '\n' ∉ st.buffer) :
    chunks.foldl (feedChunk parse) st = chunks.flatten.foldl (feedChar parse) st := by
  induction chunks generalizing st with
  | nil => simp
  | cons c cs ih =>
    rw [List.foldl_cons, feedChunk_eq_foldl parse c st h, List.flatten_cons,
      List.foldl_append]
    exact ih _ (no_newline_foldl_feedChar parse c st h)

/-- C4: chunk boundaries are invisible to the SSE reader.  For every stream
and every partition of it into chunks, feeding the chunks one by one through
the buffered decode-and-split loop of `agentStream` produces exactly the same
reader state — in particular the same ordered sequence of events delivered to
`onEvent` — as delivering the whole stream as a single chunk.  The statement
is universal in the JSON parse function, so it covers malformed payloads as
well. -/
theorem agentStream_chunking_invariant {E : Type} (parse : List Char → Option E)
    (chunks : List (List Char)) :
    chunks.foldl (feedChunk parse) (initReadState E) =
      feedChunk parse (initReadState E) chunks.flatten := by
  rw [foldl_feedChunk_eq parse chunks _ (by simp [initReadState]),
    feedChunk_eq_foldl parse _ _ (by simp [initReadState])]

/-- C8: a malformed frame is dropped in isolation.  If the middle one of
three newline-terminated `data: ` lines fails to parse, the reader still
delivers the events of the two well-formed lines around it, in order, and the
read loop runs to completion (the embedding is a total function; the parse
failure is the `none` case of `processSseLine`, never an exception to the
caller). -/
theorem agentStream_malformed_frame_dropped {E : Type} (parse : List Char → Option E)
    (l1 lb l2 : List Char) (e1 e2 : E)
    (h1 : processSseLine parse l1 = some e1)
    (hb : processSseLine parse lb = none)
    (h2 : processSseLine parse l2 = some e2)
    (n1 : '\n' ∉ l1) (nb : '\n' ∉ lb) (n2 : '\n' ∉ l2) :
    feedChunk parse (initReadState E) (l1 ++ '\n' :: (lb ++ '\n' :: (l2 ++ ['\n']))) =
      ⟨[], [e1, e2]⟩ := by
  simp only [feedChunk, initReadState, List.nil_append]
  rw [jsSplitNl_append_newline _ n1, jsSplitNl_append_newline _ nb,
    jsSplitNl_append_newline _ n2]
  simp [List.filterMap_cons, h1, hb, h2, List.getLastD, List.dropLast, jsSplitNl]

/-- Witness for C8 at a concrete parse function and concrete frames. -/
theorem agentStream_malformed_frame_dropped_witness :
    feedChunk (fun s => if s = ['1'] then some 1 else if s = ['2'] then some 2 else none)
      (initReadState Nat)
      ("data: 1".toList ++ '\n' :: ("data: x".toList ++ '\n' :: ("data: 2".toList ++ ['\n']))) =
      ⟨[], [1, 2]⟩ :=
  agentStream_malformed_frame_dropped _ _ _ _ 1 2 (by decide) (by decide) (by decide)
    (by decide) (by decide) (by decide)

/-! ### Theorems: the Code Doctor reducer (claims C1, C2 and C3) -/

/-- C1 (code bug): tool_result subtype frames are never accumulated.  Under
either plausible wire encoding, a stream carrying three security-finding
payloads followed by a `done` frame leaves `securityFindings` with length 0,
not 3: the guards `event.type === 'security_finding'` (and the `issue` /
`recommendation_found` ones) sit inside `case 'tool_result':` and can never
hold, so the accumulators are only ever overwritten from the `done` frame's
arrays. -/
theorem codeDoctor_tool_result_frames_never_accumulated :
    (processEvents (initialDoctorState "r")
        [secFindingFrame "a", secFindingFrame "b", secFindingFrame "c",
         doneFrameEmpty]).securityFindings.length = 0
    ∧ (processEvents (initialDoctorState "r")
        [secFindingFrameAlt "a", secFindingFrameAlt "b", secFindingFrameAlt "c",
         doneFrameEmpty]).securityFindings.length = 0
    ∧ ([secFindingFrame "a", secFindingFrame "b", secFindingFrame "c",
        doneFrameEmpty].countP
          (fun e => e.type == "tool_result" && e.finding.isSome)) = 3 := by
  refine ⟨?_, ?_, ?_⟩ <;> rfl

/-- Helper: every frame whose `type` is `"tool_result"` leaves the reducer
state completely unchanged — the three subtype guards inside that branch are
unsatisfiable. -/
theorem handleStreamEvent_tool_result_is_noop (st : DoctorState) (e : StreamEvent)
    (h : e.type = "tool_result") : handleStreamEvent st e = st := by
  have h1 : ¬ e.type = "thinking" := by rw [h]; decide
  have h2 : ¬ e.type = "tool_start" := by rw [h]; decide
  have h3 : ¬ (e.type = "security_finding" ∧ e.finding.isSome) := by
    rintro ⟨hs, -⟩; rw [h] at hs; exact absurd hs (by decide)
  have h4 : ¬ (e.type = "issue" ∧ e.issue.isSome) := by
    rintro ⟨hs, -⟩; rw [h] at hs; exact absurd hs (by decide)
  have h5 : ¬ (e.type = "recommendation_found" ∧ e.recommendation.isSome) := by
    rintro ⟨hs, -⟩; rw [h] at hs; exact absurd hs (by decide)
  simp [handleStreamEvent, h, h1, h2, h3, h4, h5]

/-- C2 (code bug): an `error` frame does not fail the operation.  The
`throw new Error(event.error || 'Unknown error')` for `error` frames is
caught by the enclosing per-frame `catch (parseError)`, which only logs;
concretely, after the stream `[error "boom", thinking \x7bphase:
'security'\x7d]` the user-visible error state is still `none`, the frame
after the error was folded as structural progress (`currentPhase` advanced
to `"security"` and its log entry was appended), and no error entry was
logged. -/
theorem codeDoctor_error_frame_swallowed :
    (processEvents (initialDoctorState "r")
        [{ type := "error", error := some "boom" },
         { type := "thinking", phase := some "security", message := some "scanning" }]).error
      = none
    ∧ (processEvents (initialDoctorState "r")
        [{ type := "error", error := some "boom" },
         { type := "thinking", phase := some "security", message := some "scanning" }]).currentPhase
      = "security"
    ∧ (processEvents (initialDoctorState "r")
        [{ type := "error", error := some "boom" },
         { type := "thinking", phase := some "security", message := some "scanning" }]).events.length
      = 2 := by
  refine ⟨?_, ?_, ?_⟩ <;> rfl

/-- C3 (code bug): a transport close before any terminal frame is silent.
When the connection ends after a `tool_start \x7bphase: 'clone'\x7d` frame
with no `done`/`error` frame observed, the loop falls through: no
incomplete/timed-out condition is reported (`error = none`), no success is
produced either (`result = none`), the busy flag is cleared by `finally`,
and the partial state accumulated before the cut (here the event log and the
phase) is retained rather than discarded. -/
theorem codeDoctor_transport_close_unreported :
    (processEvents (initialDoctorState "r")
        [{ type := "tool_start", phase := some "clone" }]).error = none
    ∧ (processEvents (initialDoctorState "r")
        [{ type := "tool_start", phase := some "clone" }]).result = none
    ∧ (processEvents (initialDoctorState "r")
        [{ type := "tool_start", phase := some "clone" }]).isAnalyzing = false
    ∧ (processEvents (initialDoctorState "r")
        [{ type := "tool_start", phase := some "clone" }]).currentPhase = "clone"
    ∧ (processEvents (initialDoctorState "r")
        [{ type := "tool_start", phase := some "clone" }]).events.length = 2 := by
  refine ⟨?_, ?_, ?_, ?_, ?_⟩ <;> rfl

/-! ### Theorems: job polling (claims C5 and C6) -/

/-- C5: the poll loop returns exactly at the first terminal status.  If the
fetch trace consists of non-terminal statuses `pre`, then a terminal status
`t`, then anything, the loop returns `t`, `onProgress` was invoked once per
fetch including the terminal one (`pre ++ [t]`), and nothing after `t` is
ever fetched; in particular the returned status is terminal and is never a
non-terminal one. -/
theorem pollJobUntilComplete_stops_at_first_terminal
    (pre : List AsyncJobStatus) (t : AsyncJobStatus) (post : List AsyncJobStatus)
    (hpre : ∀ s ∈ pre, isTerminalJob s = false) (ht : isTerminalJob t = true) :
    pollJobUntilComplete (pre ++ t :: post) = (pre ++ [t], some t) := by
  induction pre with
  | nil => simp [pollJobUntilComplete, ht]
  | cons s pre ih =>
    have hs : isTerminalJob s = false := hpre s (List.mem_cons_self s pre)
    have hrest : ∀ x ∈ pre, isTerminalJob x = false :=
      fun x hx => hpre x (List.mem_cons_of_mem s hx)
    simp [pollJobUntilComplete, hs, ih hrest]

/-- Witness for C5: one `running` fetch, then `completed`; the fetch after
the terminal one is never consumed. -/
theorem pollJobUntilComplete_stops_at_first_terminal_witness :
    pollJobUntilComplete
        [⟨"j1", JobState.running, none⟩, ⟨"j1", JobState.completed, none⟩,
         ⟨"j1", JobState.failed, none⟩] =
      ([⟨"j1", JobState.running, none⟩, ⟨"j1", JobState.completed, none⟩],
        some ⟨"j1", JobState.completed, none⟩) :=
  pollJobUntilComplete_stops_at_first_terminal
    [⟨"j1", JobState.running, none⟩] ⟨"j1", JobState.completed, none⟩
    [⟨"j1", JobState.failed, none⟩] (by decide) (by decide)

/-- C6 (code bug): the loop has no cancellation path.  Its only inputs are
the fetched statuses — the source `while (true)` checks nothing else — so
for every `n`, a job that reports `running` `n` times in a row causes `n`
status fetches and `n` `onProgress` calls with the loop still going
(`none`): no caller action can stop it, and the pending `setTimeout` timer
is never cleared. -/
theorem pollJobUntilComplete_uncancellable (n : Nat) :
    pollJobUntilComplete (List.replicate n ⟨"job", JobState.running, none⟩) =
      (List.replicate n ⟨"job", JobState.running, none⟩, none) := by
  induction n with
  | zero => rfl
  | succ n ih => simp [List.replicate_succ, pollJobUntilComplete, isTerminalJob, ih]

/-! ### Theorems: credential storage (claims C7 and C10) -/

theorem exclusiveStorage_setApiKey (st : ApiClientState) (k : String) :
    exclusiveStorage (setApiKey st k) := by
  unfold setApiKey exclusiveStorage
  cases st.storageType <;> simp

theorem exclusiveStorage_applyOp (st : ApiClientState) (op : ClientOp)
    (h : exclusiveStorage st) : exclusiveStorage (applyOp st op) := by
  cases op with
  | setKey k => exact exclusiveStorage_setApiKey st k
  | clearKey => simp [applyOp, clearApiKey, exclusiveStorage]
  | setType t =>
    simp only [applyOp, setStorageType]
    cases hk : st.apiKey with
    | none => exact h
    | some k =>
      by_cases hke : k = ""
      · simpa [hke] using h
      · simpa [hke] using exclusiveStorage_setApiKey _ k

theorem exclusiveStorage_applyOps (ops : List ClientOp) (st : ApiClientState)
    (h : exclusiveStorage st) : exclusiveStorage (applyOps st ops) := by
  induction ops generalizing st with
  | nil => exact h
  | cons op rest ih =>
    exact ih (applyOp st op) (exclusiveStorage_applyOp st op h)

/-- C7: the API key lives in at most one persistent location, and storage
changes migrate it.  First conjunct: after every operation sequence from a
clean start, at most one of `localStorage` / `sessionStorage` holds the key.
Remaining conjuncts, for any non-empty key `k` set under the default
`'session'` policy: switching to `'local'` moves it to durable storage and
removes it from session storage; switching back to `'session'` does the
reverse; switching to `'memory'` leaves it in neither store while the
in-memory field keeps it. -/
theorem apiClient_storage_exclusive_and_migrating :
    (∀ ops : List ClientOp, exclusiveStorage (applyOps initialClient ops))
    ∧ ∀ k : String, k ≠ "" →
        (setStorageType (setApiKey initialClient k) StorageType.local).localStore = some k
        ∧ (setStorageType (setApiKey initialClient k) StorageType.local).sessionStore = none
        ∧ (setStorageType (setStorageType (setApiKey initialClient k) StorageType.local)
            StorageType.session).sessionStore = some k
        ∧ (setStorageType (setStorageType (setApiKey initialClient k) StorageType.local)
            StorageType.session).localStore = none
        ∧ (setStorageType (setApiKey initialClient k) StorageType.memory).localStore = none
        ∧ (setStorageType (setApiKey initialClient k) StorageType.memory).sessionStore = none
        ∧ (setStorageType (setApiKey initialClient k) StorageType.memory).apiKey = some k := by
  constructor
  · intro ops
    exact exclusiveStorage_applyOps ops initialClient (Or.inl rfl)
  · intro k hk
    simp [setStorageType, setApiKey, initialClient, hk]

/-- Witness for C7: the migration conjuncts at the concrete key "secret". -/
theorem apiClient_storage_exclusive_and_migrating_witness :
    (setStorageType (setApiKey initialClient "secret") StorageType.local).localStore
        = some "secret"
    ∧ (setStorageType (setApiKey initialClient "secret") StorageType.local).sessionStore
        = none :=
  ⟨(apiClient_storage_exclusive_and_migrating.2 "secret" (by decide)).1,
    (apiClient_storage_exclusive_and_migrating.2 "secret" (by decide)).2.1⟩

/-- C10: credential accessor round-trip.  After `setApiKey k` (from any
state) `getApiKey` returns `k`, and the headers carry `X-API-Key ↦ k`
exactly when `k` is non-empty; after `clearApiKey`, `getApiKey` is `null`,
`hasApiKey` is `false`, and no `X-API-Key` header is attached. -/
theorem apiClient_credential_roundtrip (st : ApiClientState) (k : String) :
    getApiKey (setApiKey st k) = some k
    ∧ ((getHeaders (setApiKey st k)).lookup "X-API-Key" = some k ↔ k ≠ "")
    ∧ getApiKey (clearApiKey st) = none
    ∧ hasApiKey (clearApiKey st) = false
    ∧ (getHeaders (clearApiKey st)).lookup "X-API-Key" = none := by
  have hset : (setApiKey st k).apiKey = some k := by
    unfold setApiKey
    cases st.storageType <;> rfl
  refine ⟨hset, ?_, rfl, rfl, rfl⟩
  by_cases hk : k = ""
  · subst hk
    simp [getHeaders, hset, List.lookup]
  · simp [getHeaders, hset, hk, List.lookup]

/-- Witness for C10 at a concrete state and key. -/
theorem apiClient_credential_roundtrip_witness :
    getApiKey (setApiKey initialClient "k1") = some "k1"
    ∧ getApiKey (clearApiKey initialClient) = none :=
  ⟨(apiClient_credential_roundtrip initialClient "k1").1,
    (apiClient_credential_roundtrip initialClient "k1").2.2.1⟩

/-! ### Theorems: the chat store (claim C9) -/

theorem set_last_concat (ms : List Message) (m v : Message) :
    (ms ++ [m]).set ((ms ++ [m]).length - 1) v = ms ++ [v] := by
  induction ms with
  | nil => rfl
  | cons a ms ih =>
    have h2 : ((a :: ms) ++ [m]).length - 1 = ms.length + 1 := by simp
    have hlen : (ms ++ [m]).length - 1 = ms.length := by simp
    rw [h2, List.cons_append, List.set_cons_succ, ← hlen, ih, List.cons_append]

theorem updateLastMessage_concat (ms : List Message) (m : Message) (u : MessageUpdate) :
    updateLastMessage (ms ++ [m]) u = ms ++ [applyUpdates m u] := by
  unfold updateLastMessage
  rw [List.getLast?_concat]
  exact set_last_concat ms m (applyUpdates m u)

/-- C9: `updateLastMessage` touches only the final entry.  For every message
list and update: the length is preserved; every entry other than the last
(its `id` and `timestamp` included) is unchanged; the last entry becomes the
spread-merge of itself with the update (and the all-absent update merges to
the identity, so fields the update does not supply are untouched); the empty
list is returned unchanged without any error. -/
theorem updateLastMessage_spec (msgs : List Message) (u : MessageUpdate) :
    (updateLastMessage msgs u).length = msgs.length
    ∧ (∀ i : Nat, i + 1 < msgs.length → (updateLastMessage msgs u)[i]? = msgs[i]?)
    ∧ (updateLastMessage msgs u).getLast? = msgs.getLast?.map (fun m => applyUpdates m u)
    ∧ (∀ m : Message, applyUpdates m {} = m)
    ∧ updateLastMessage ([] : List Message) u = [] := by
  induction msgs using List.reverseRecOn with
  | nil =>
    refine ⟨rfl, ?_, rfl, fun m => rfl, rfl⟩
    intro i hi
    exact absurd hi (by simp)
  | append_singleton ms m _ =>
    rw [updateLastMessage_concat ms m u]
    refine ⟨by simp, ?_, ?_, fun m => rfl, rfl⟩
    · intro i hi
      have hi' : i < ms.length := by
        simpa [List.length_append] using hi
      rw [List.getElem?_append, List.getElem?_append, if_pos hi', if_pos hi']
    · simp [List.getLast?_concat]

/-- Witness for C9: a two-message list with a content patch; the first
message is untouched. -/
theorem updateLastMessage_spec_witness :
    (updateLastMessage
        [{ id := "a", role := Role.user, content := "hi", timestamp := 0 },
         { id := "b", role := Role.assistant, content := "...", timestamp := 1 }]
        { content := some "done" })[0]?
      = (([{ id := "a", role := Role.user, content := "hi", timestamp := 0 },
           { id := "b", role := Role.assistant, content := "...", timestamp := 1 }] :
          List Message))[0]? :=
  (updateLastMessage_spec
      [{ id := "a", role := Role.user, content := "hi", timestamp := 0 },
       { id := "b", role := Role.assistant, content := "...", timestamp := 1 }]
      { content := some "done" }).2.1 0 (by decide)

end GeminiFrontend
